import Mathlib

/-!
Shallow embedding of the `sph1dtests` one-dimensional SPH test code, together
with theorems settling the frozen claims about its specification.

The embedding maps each Python module to a namespace:
`Sph` for `src/sphtests/sph.py`, `Gadget` for `src/sphtests/gadget.py`,
`PressureEntropy` for `src/sphtests/pressure_entropy.py`, `Containers` for
`src/sphtests/containers.py`, and `Legacy` for the historical top-level
`src/containers.py` variant.  Floating-point arithmetic is modelled over `ℝ`.
The scalar root finder `scipy.optimize.root` is external to the repository and
is modelled, following the specification's root-finder capability, as an
arbitrary function `RootSolver` of the objective, the initial guess and the
optional tolerance; every theorem that does not pin down a particular solver
behaviour quantifies over it.
-/

open Classical

noncomputable section

namespace SphTests

namespace Sph

/-- `gadget_kernel` from `src/sphtests/sph.py`: the standard GADGET kernel,
piecewise cubic with compact support `r/h ≤ 1`. -/
noncomputable def gadget_kernel (r h : ℝ) : ℝ :=
  let factor := r / h
  let factor2 := factor * factor
  let prefactor := 4 / (3 * h)
  let poly :=
    if factor ≤ 1 / 2 then 1 - 6 * factor2 + 6 * factor2 * factor
    else if factor ≤ 1 then 2 * (1 - factor) * (1 - factor) * (1 - factor)
    else 0
  prefactor * poly

/-- `cubic_kernel` from `src/sphtests/sph.py` (Price 2012), compact support
`r/h < 2`. -/
noncomputable def cubic_kernel (r h : ℝ) : ℝ :=
  let factor := r / h
  let prefactor := 2 / (3 * h)
  let poly :=
    if factor < 1 then 1 / 4 * (2 - factor) ^ 3 - (1 - factor) ^ 3
    else if factor < 2 then 1 / 4 * (2 - factor) ^ 3
    else 0
  prefactor * poly

/-- `quintic_kernel` from `src/sphtests/sph.py` (Price 2012), compact support
`r/h < 3`. -/
noncomputable def quintic_kernel (r h : ℝ) : ℝ :=
  let q := r / h
  let prefactor := 1 / (120 * h)
  let poly :=
    if q < 1 then (3 - q) ^ 5 - 6 * (2 - q) ^ 5 + 15 * (1 - q) ^ 5
    else if q < 2 then (3 - q) ^ 5 - 6 * (2 - q) ^ 5
    else if q < 3 then (3 - q) ^ 5
    else 0
  poly * prefactor

/-- `gaussian_kernel` from `src/sphtests/sph.py`: everywhere-positive Gaussian,
with `sigma = h/2` and normalisation `1/sqrt(2*pi*sigma)` exactly as written
in the source. -/
noncomputable def gaussian_kernel (r h : ℝ) : ℝ :=
  let sigma := h / 2
  let prefactor := 1 / Real.sqrt (2 * Real.pi * sigma)
  let exponential := Real.exp (-(1 / 2) * (r / sigma) ^ 2)
  prefactor * exponential

/-- `tophat_kernel` from `src/sphtests/sph.py`, compact support `r/h < 1`. -/
noncomputable def tophat_kernel (r h : ℝ) : ℝ :=
  let prefactor := 1 / (2 * h)
  if r / h < 1 then prefactor else 0

/-- `triangle_kernel` from `src/sphtests/sph.py`, compact support `r/h < 1`. -/
noncomputable def triangle_kernel (r h : ℝ) : ℝ :=
  let prefactor := 1 / h
  if r / h < 1 then (1 - r / h) * prefactor else 0

/-- `separations` from `src/sphtests/sph.py`: absolute distances from `radius`
to every entry of `radii`, in order. -/
def separations (radius : ℝ) (radii : List ℝ) : List ℝ :=
  radii.map fun r => |r - radius|

/-- `diff` from `src/sphtests/sph.py`: `sum(abs(i-j) for i, j in zip(x, y))`. -/
def diff (x y : List ℝ) : ℝ :=
  ((x.zip y).map fun ij => |ij.1 - ij.2|).sum

end Sph

namespace Legacy

/-- `GadgetData.separations` from the historical top-level `src/containers.py`
(lines 36-42): signed differences `r - radius`, with no absolute value. -/
def separations (radius : ℝ) (radii : List ℝ) : List ℝ :=
  radii.map fun r => r - radius

end Legacy

/-- Modelled from the spec: `scipy.optimize.root` is not part of this
repository; per the design's scalar root-finder capability
`solve(objective, initial, tol)` it is embedded as an arbitrary function of
the objective, the initial guess and the optional tolerance.  Theorems about
repository code quantify over this solver unless a claim needs a concrete
solver behaviour. -/
def RootSolver : Type := (ℝ → ℝ) → ℝ → Option ℝ → ℝ

/-- A solver behaviour that returns the initial guess unchanged. -/
def solveInit : RootSolver := fun _ x0 _ => x0

/-- A solver behaviour that drifts away from the initial guess by one. -/
def solvePlusOne : RootSolver := fun _ x0 _ => x0 + 1

namespace Gadget

/-- `density` from `src/sphtests/gadget.py`: kernel-weighted sum over the
separations, mass-weighted when `masses` is given. -/
noncomputable def density (r : List ℝ) (h : ℝ) (masses : Option (List ℝ))
    (kernel : ℝ → ℝ → ℝ) : ℝ :=
  let weights := r.map fun radius => kernel radius h
  match masses with
  | some ms => ((ms.zip weights).map fun mw => mw.1 * mw.2).sum
  | none => weights.sum

/-- The local objective `to_reduce` of `h` in `src/sphtests/gadget.py`:
`(this_h / (mass * eta)) * density(r, this_h, masses) - 1`, with `density`
evaluated with its default GADGET kernel exactly as the source does. -/
noncomputable def to_reduce (r : List ℝ) (mass eta : ℝ)
    (masses : Option (List ℝ)) (this_h : ℝ) : ℝ :=
  this_h / (mass * eta) * density r this_h masses Sph.gadget_kernel - 1

/-- `h` from `src/sphtests/gadget.py`: hands `to_reduce`, the initial guess and
the optional tolerance to the root finder and returns `fitted.x[0]`
unconditionally. -/
noncomputable def h (solve : RootSolver) (r : List ℝ) (initial mass eta : ℝ)
    (tol : Option ℝ) (masses : Option (List ℝ)) : ℝ :=
  solve (to_reduce r mass eta masses) initial tol

/-- `gas_pressure` from `src/sphtests/gadget.py`: `(gamma - 1) * rho * u`. -/
noncomputable def gas_pressure (density internal_energy γ : ℝ) : ℝ :=
  (γ - 1) * density * internal_energy

/-- `gas_pressure_adiabat` from `src/sphtests/gadget.py`: `A * rho^gamma`. -/
noncomputable def gas_pressure_adiabat (density adiabat γ : ℝ) : ℝ :=
  adiabat * density ^ γ

/-- `internal_energy` from `src/sphtests/gadget.py`:
`(A/(gamma-1)) * rho^(gamma-1)`. -/
noncomputable def internal_energy (adiabat density γ : ℝ) : ℝ :=
  adiabat / (γ - 1) * density ^ (γ - 1)

end Gadget

namespace PressureEntropy

/-- `A` from `src/sphtests/pressure_entropy.py`: the adiabat seed
`u * (gamma-1) / rho^(gamma-1)`. -/
noncomputable def A (energy density γ : ℝ) : ℝ :=
  energy * (γ - 1) / density ^ (γ - 1)

/-- `pressure` from `src/sphtests/pressure_entropy.py`: the smoothed pressure
`(Σ_j W(r_j, h) * A_j^(1/γ))^γ` (mass-weighted when `masses` is given).  Note
the final exponent `P ** gamma` of the source. -/
noncomputable def pressure (r A : List ℝ) (h : ℝ) (kernel : ℝ → ℝ → ℝ)
    (γ : ℝ) (masses : Option (List ℝ)) : ℝ :=
  let one_over_gamma := 1 / γ
  let weights := r.map fun radius => kernel radius h
  let As := A.map fun a => a ^ one_over_gamma
  let P := match masses with
    | some ms => ((ms.zip (weights.zip As)).map fun x => x.1 * x.2.1 * x.2.2).sum
    | none => ((weights.zip As).map fun wa => wa.1 * wa.2).sum
  P ^ γ

/-- The raw kernel-weighted sum in the words of the SPEC's fixed-point
equation for claim C1: `Σ_j W(r_ij, h_i) * A_j^(1/γ)` (optionally
mass-weighted), with no outer power.  This definition follows the spec's
words and exists to be compared against the source's `pressure`. -/
noncomputable def P_sum_spec (r A : List ℝ) (h : ℝ) (kernel : ℝ → ℝ → ℝ)
    (γ : ℝ) (masses : Option (List ℝ)) : ℝ :=
  let one_over_gamma := 1 / γ
  let weights := r.map fun radius => kernel radius h
  let As := A.map fun a => a ^ one_over_gamma
  match masses with
  | some ms => ((ms.zip (weights.zip As)).map fun x => x.1 * x.2.1 * x.2.2).sum
  | none => ((weights.zip As).map fun wa => wa.1 * wa.2).sum

/-- The right-hand side `P_calc` of the objective inside `A_reduced`:
`this_A * ((energy/this_A) * (gamma-1))^(gamma/(gamma-1))`. -/
noncomputable def P_calc (this_A energy γ : ℝ) : ℝ :=
  this_A * ((energy / this_A) * (γ - 1)) ^ (γ / (γ - 1))

/-- The guarded in-place write `if index != -1: A[index] = v` of
`src/sphtests/pressure_entropy.py`, with Python's negative-index addressing
for the unguarded negative values.  (Python raises IndexError outside the
valid range; the claims only concern `index = -1` or an in-range `index`.) -/
def trialArray (A : List ℝ) (index : ℤ) (v : ℝ) : List ℝ :=
  if index = -1 then A
  else if 0 ≤ index then A.set index.toNat v
  else A.set (A.length - (-index).toNat) v

/-- The local objective `to_reduce` of `A_reduced` in
`src/sphtests/pressure_entropy.py`: each trial evaluation first writes the
trial value into slot `index` of the shared array (when `index != -1`) and
then computes `1 - P_sum / P_calc` where `P_sum` is the source's `pressure`
of the mutated array. -/
noncomputable def to_reduce (r A : List ℝ) (h energy : ℝ) (index : ℤ)
    (kernel : ℝ → ℝ → ℝ) (γ : ℝ) (masses : Option (List ℝ)) (this_A : ℝ) : ℝ :=
  1 - pressure r (trialArray A index this_A) h kernel γ masses
      / P_calc this_A energy γ

/-- `A_reduced` from `src/sphtests/pressure_entropy.py`: runs the root search
on `to_reduce` and finally writes the fitted value back into slot `index`
(when `index != -1`), returning the fitted value together with the array.
All intermediate trial writes target the same slot, so the returned array is
the entry array with, at most, slot `index` replaced by the fitted value. -/
noncomputable def A_reduced (solve : RootSolver) (r A : List ℝ)
    (h energy initial : ℝ) (index : ℤ) (kernel : ℝ → ℝ → ℝ) (γ : ℝ)
    (tol : Option ℝ) (masses : Option (List ℝ)) : ℝ × List ℝ :=
  let x := solve (to_reduce r A h energy index kernel γ masses) initial tol
  (x, trialArray A index x)

/-- `smoothed_density` from `src/sphtests/pressure_entropy.py`:
`(P/A)^(1/gamma)`. -/
noncomputable def smoothed_density (A P γ : ℝ) : ℝ :=
  (P / A) ^ (1 / γ)

end PressureEntropy

namespace Containers

/-- One step of the Gauss-Seidel sweep of
`PressureEntropyData.minimise_A` (`src/sphtests/containers.py`): particle `i`
is processed by `A_reduced` against the shared array `arr`, with its initial
guess read from the previous sweep's array `old`. -/
noncomputable def sweepStep (solve : RootSolver) (r hs us : List ℝ)
    (kernel : ℝ → ℝ → ℝ) (γ : ℝ) (old arr : List ℝ) (i : ℕ) : List ℝ :=
  (PressureEntropy.A_reduced solve (Sph.separations (r.getD i 0) r) arr
    (hs.getD i 0) (us.getD i 0) (old.getD i 0) (i : ℤ) kernel γ none none).2

/-- The shared array after the first `n` particles of a sweep have been
processed, starting from `arr0`. -/
noncomputable def sweepUpto (solve : RootSolver) (r hs us : List ℝ)
    (kernel : ℝ → ℝ → ℝ) (γ : ℝ) (old arr0 : List ℝ) : ℕ → List ℝ
  | 0 => arr0
  | i + 1 =>
      sweepStep solve r hs us kernel γ old
        (sweepUpto solve r hs us kernel γ old arr0 i) i

/-- Number of particles visited by one sweep: the length of
`zip(old, h, energies)` in the source's `for` loop. -/
def sweepLen (old hs us : List ℝ) : ℕ :=
  min old.length (min hs.length us.length)

/-- A full sweep of `minimise_A`. -/
noncomputable def sweep (solve : RootSolver) (r hs us : List ℝ)
    (kernel : ℝ → ℝ → ℝ) (γ : ℝ) (old arr0 : List ℝ) : List ℝ :=
  sweepUpto solve r hs us kernel γ old arr0 (sweepLen old hs us)

/-- The converged value the nested root search returns for particle `i`
during the sweep that starts from `arr0` (the first component of
`A_reduced`'s result at step `i`). -/
noncomputable def convA (solve : RootSolver) (r hs us : List ℝ)
    (kernel : ℝ → ℝ → ℝ) (γ : ℝ) (old arr0 : List ℝ) (i : ℕ) : ℝ :=
  (PressureEntropy.A_reduced solve (Sph.separations (r.getD i 0) r)
    (sweepUpto solve r hs us kernel γ old arr0 i)
    (hs.getD i 0) (us.getD i 0) (old.getD i 0) (i : ℤ) kernel γ none none).1

/-- The `while difference > tol` loop of `minimise_A`
(`src/sphtests/containers.py`).  The source has no iteration cap; the fuel
argument indexes the loop's iterates, with `none` meaning the loop is still
running after that many sweeps. -/
noncomputable def minimiseLoop (solve : RootSolver) (r hs us : List ℝ)
    (kernel : ℝ → ℝ → ℝ) (γ : ℝ) (tol : ℝ) :
    ℕ → List ℝ → List ℝ → Option (List ℝ)
  | 0, _, _ => none
  | fuel + 1, old, new =>
      let new2 := sweep solve r hs us kernel γ old new
      let difference := Sph.diff old new2
      if difference ≤ tol then some new2
      else minimiseLoop solve r hs us kernel γ tol fuel new2 new2

/-- `PressureEntropyData.minimise_A` (`src/sphtests/containers.py`) at the
level of list values: `old = A.copy(); new = old.copy()` give two arrays both
holding `A`'s values, and the loop runs until the post-sweep difference is at
most `tol` (source default `1e-7`). -/
noncomputable def minimise_A (solve : RootSolver) (fuel : ℕ) (A r hs us : List ℝ)
    (kernel : ℝ → ℝ → ℝ) (tol γ : ℝ) : Option (List ℝ) :=
  minimiseLoop solve r hs us kernel γ tol fuel A A

/-- A heap of Python list objects: references are indices into the store.
Used to state frame properties about which list object a routine mutates. -/
abbrev Store := List (List ℝ)

/-- Dereference a list object. -/
def Store.read (s : Store) (i : ℕ) : List ℝ := s.getD i []

/-- Mutate a list object in place. -/
def Store.write (s : Store) (i : ℕ) (v : List ℝ) : Store := s.set i v

/-- `list.copy()`: allocate a fresh list object holding `v`. -/
def Store.alloc (s : Store) (v : List ℝ) : Store × ℕ := (s ++ [v], s.length)

/-- One sweep at the store level: every per-particle write of the sweep
targets the shared array object `rNew`, so the sweep's net effect on the
store is to overwrite `rNew` with the swept values (the previous sweep's
object `rOld` is only read). -/
noncomputable def sweepStore (solve : RootSolver) (r hs us : List ℝ)
    (kernel : ℝ → ℝ → ℝ) (γ : ℝ) (s : Store) (rOld rNew : ℕ) : Store :=
  Store.write s rNew
    (sweep solve r hs us kernel γ (Store.read s rOld) (Store.read s rNew))

/-- The `minimise_A` loop at the store level: sweep into `rNew`, measure the
difference against `rOld`, then `old = new.copy()` allocates a fresh object.
Fuel exhaustion returns the current `old` object (the loop is uncapped in the
source, so this models an arbitrary prefix of its execution). -/
noncomputable def minimiseStoreLoop (solve : RootSolver) (r hs us : List ℝ)
    (kernel : ℝ → ℝ → ℝ) (γ : ℝ) (tol : ℝ) :
    ℕ → Store → ℕ → ℕ → Store × ℕ
  | 0, s, rOld, _ => (s, rOld)
  | fuel + 1, s, rOld, rNew =>
      let s1 := sweepStore solve r hs us kernel γ s rOld rNew
      let difference := Sph.diff (Store.read s1 rOld) (Store.read s1 rNew)
      let a1 := Store.alloc s1 (Store.read s1 rNew)
      if difference ≤ tol then a1
      else minimiseStoreLoop solve r hs us kernel γ tol fuel a1.1 a1.2 rNew

/-- `minimise_A` at the store level: the caller's array object `rA` is only
read (`old = A.copy(); new = old.copy()` allocate fresh objects), and the
loop mutates only those copies. -/
noncomputable def minimise_A_store (solve : RootSolver) (fuel : ℕ) (s : Store)
    (rA : ℕ) (r hs us : List ℝ) (kernel : ℝ → ℝ → ℝ) (tol γ : ℝ) :
    Store × ℕ :=
  let a1 := Store.alloc s (Store.read s rA)
  let a2 := Store.alloc a1.1 (Store.read a1.1 a1.2)
  minimiseStoreLoop solve r hs us kernel γ tol fuel a2.1 a1.2 a2.2

/-- Error taxonomy for the container constructors.  `configMissing` and
`configBoth` embed the two `AttributeError`s of the source; `divergence` is
the spec-mandated outcome when the uncapped sweep loop is cut off by fuel. -/
inductive SphError
  | configMissing
  | configBoth
  | divergence

/-- `GadgetData.calculate_smoothing_lengths` (`src/sphtests/containers.py`):
one smoothing-length solve per particle, `initial = 1`, `mass = 1`,
`tol = None`. -/
noncomputable def calculate_smoothing_lengths (solve : RootSolver)
    (positions : List ℝ) (eta : ℝ) : List ℝ :=
  positions.map fun p => Gadget.h solve (Sph.separations p positions) 1 1 eta none none

/-- `GadgetData.calculate_densities` (`src/sphtests/containers.py`). -/
noncomputable def calculate_densities (positions hs : List ℝ)
    (kernel : ℝ → ℝ → ℝ) : List ℝ :=
  List.zipWith (fun sep smooth => Gadget.density sep smooth none kernel)
    (positions.map fun p => Sph.separations p positions) hs

/-- `GadgetData.calculate_pressures` (`src/sphtests/containers.py`). -/
noncomputable def calculate_pressures (densities energies : List ℝ) (γ : ℝ) :
    List ℝ :=
  List.zipWith (fun rho e => Gadget.gas_pressure rho e γ) densities energies

/-- `GadgetData.calculate_pressures_adiabats` (`src/sphtests/containers.py`). -/
noncomputable def calculate_pressures_adiabats (densities adiabats : List ℝ)
    (γ : ℝ) : List ℝ :=
  List.zipWith (fun rho a => Gadget.gas_pressure_adiabat rho a γ) densities adiabats

/-- `GadgetData.calculate_energies` (`src/sphtests/containers.py`). -/
noncomputable def calculate_energies (adiabats densities : List ℝ) (γ : ℝ) :
    List ℝ :=
  List.zipWith (fun a rho => Gadget.internal_energy a rho γ) adiabats densities

/-- `PressureEntropyData.calculate_adiabats` (`src/sphtests/containers.py`). -/
noncomputable def calculate_adiabats (energies densities : List ℝ) (γ : ℝ) :
    List ℝ :=
  List.zipWith (fun e rho => PressureEntropy.A e rho γ) energies densities

/-- The data held by a constructed `GadgetData` object. -/
structure GadgetData where
  positions : List ℝ
  energies : Option (List ℝ)
  adiabats : Option (List ℝ)
  smoothing_lengths : List ℝ
  densities : List ℝ
  pressures : List ℝ

/-- `GadgetData.__init__` (`src/sphtests/containers.py`): the
energies/adiabats configuration is validated first, and only then are
smoothing lengths, densities and pressures computed (printing is dropped). -/
noncomputable def GadgetData_init (solve : RootSolver) (positions : List ℝ)
    (energies adiabats : Option (List ℝ)) (eta γ : ℝ)
    (kernel : ℝ → ℝ → ℝ) : Except SphError GadgetData :=
  match energies, adiabats with
  | none, none => .error .configMissing
  | some _, some _ => .error .configBoth
  | some es, none =>
      let hs := calculate_smoothing_lengths solve positions eta
      let ds := calculate_densities positions hs kernel
      .ok ⟨positions, some es, none, hs, ds, calculate_pressures ds es γ⟩
  | none, some as0 =>
      let hs := calculate_smoothing_lengths solve positions eta
      let ds := calculate_densities positions hs kernel
      .ok ⟨positions, some (calculate_energies as0 ds γ), some as0, hs, ds,
        calculate_pressures_adiabats ds as0 γ⟩

/-- `PressureEntropyData.pressures` (`src/sphtests/containers.py`): the PESPH
smoothed pressure at each particle position. -/
noncomputable def pressures (positions As hs : List ℝ) (kernel : ℝ → ℝ → ℝ)
    (γ : ℝ) : List ℝ :=
  List.zipWith
    (fun sep this_h => PressureEntropy.pressure sep As this_h kernel γ none)
    (positions.map fun p => Sph.separations p positions) hs

/-- `PressureEntropyData.density_twiddle` (`src/sphtests/containers.py`). -/
noncomputable def density_twiddle (As Ps : List ℝ) (γ : ℝ) : List ℝ :=
  List.zipWith (fun a p => PressureEntropy.smoothed_density a p γ) As Ps

/-- The data held by a constructed `PressureEntropyData` object. -/
structure PressureEntropyData where
  gadget : GadgetData
  densities : List ℝ
  smoothing_lengths : List ℝ
  energies : Option (List ℝ)
  adiabats : List ℝ
  smoothed_pressures : List ℝ
  smoothed_densities : List ℝ

/-- `PressureEntropyData.__init__` (`src/sphtests/containers.py`): validates
the energies/adiabats configuration first, then builds the `GadgetData`
object, seeds the adiabats, runs `minimise_A` (source default tolerance
`1e-7`; the source loop is uncapped, so fuel exhaustion is mapped to the
spec's divergence outcome) and computes the smoothed quantities. -/
noncomputable def PressureEntropyData_init (solve : RootSolver) (fuel : ℕ)
    (positions : List ℝ) (energies adiabats : Option (List ℝ)) (eta γ : ℝ)
    (kernel : ℝ → ℝ → ℝ) : Except SphError PressureEntropyData :=
  match energies, adiabats with
  | none, none => .error .configMissing
  | some _, some _ => .error .configBoth
  | _, _ =>
      match GadgetData_init solve positions energies adiabats eta γ kernel with
      | .error e => .error e
      | .ok gd =>
          let A0 := match adiabats with
            | some v => v
            | none => calculate_adiabats (gd.energies.getD []) gd.densities γ
          match minimise_A solve fuel A0 positions gd.smoothing_lengths
              (gd.energies.getD []) kernel (1 / 10000000) γ with
          | none => .error .divergence
          | some As =>
              let ps := pressures positions As gd.smoothing_lengths kernel γ
              .ok ⟨gd, gd.densities, gd.smoothing_lengths, gd.energies, As, ps,
                density_twiddle As ps γ⟩

end Containers

/-! Helper lemmas shared by the claim theorems. -/

theorem getD_map_of_lt (f : ℝ → ℝ) (l : List ℝ) (j : ℕ) (hj : j < l.length) :
    (l.map f).getD j 0 = f (l.getD j 0) := by
  simp [List.getD_eq_getElem?_getD, List.getElem?_map, List.getElem?_eq_getElem hj]

theorem trialArray_length (A : List ℝ) (index : ℤ) (v : ℝ) :
    (PressureEntropy.trialArray A index v).length = A.length := by
  unfold PressureEntropy.trialArray
  split_ifs <;> simp

theorem trialArray_neg_one (A : List ℝ) (v : ℝ) :
    PressureEntropy.trialArray A (-1) v = A := by
  unfold PressureEntropy.trialArray
  simp

theorem trialArray_of_nonneg (A : List ℝ) (index : ℤ) (v : ℝ) (h0 : 0 ≤ index) :
    PressureEntropy.trialArray A index v = A.set index.toNat v := by
  unfold PressureEntropy.trialArray
  rw [if_neg (by omega), if_pos h0]

theorem trialArray_getD_self (A : List ℝ) (index : ℤ) (v : ℝ) (h0 : 0 ≤ index)
    (hlt : index < (A.length : ℤ)) :
    (PressureEntropy.trialArray A index v).getD index.toNat 0 = v := by
  rw [trialArray_of_nonneg A index v h0]
  have hlt' : index.toNat < A.length := by omega
  simp [List.getD_eq_getElem?_getD, List.getElem?_set_self', List.getElem?_eq_getElem hlt']

theorem trialArray_getD_ne (A : List ℝ) (index : ℤ) (v : ℝ) (j : ℕ)
    (h0 : 0 ≤ index) (hne : (j : ℤ) ≠ index) :
    (PressureEntropy.trialArray A index v).getD j 0 = A.getD j 0 := by
  rw [trialArray_of_nonneg A index v h0]
  have hne' : index.toNat ≠ j := by omega
  simp [List.getD_eq_getElem?_getD, List.getElem?_set_ne hne']

/-- C7 (confirmed): constructing either data container with both `energies`
and `adiabats`, or with neither, yields the configuration error.  The result
is the same for every solver, kernel and numeric configuration — the
validation precedes every smoothing-length, density and pressure computation
— and the error result carries no data, so no partial results are produced. -/
theorem init_configuration_validation (solve : RootSolver) (fuel : ℕ)
    (positions es as0 : List ℝ) (eta γ : ℝ) (kernel : ℝ → ℝ → ℝ) :
    Containers.GadgetData_init solve positions none none eta γ kernel
        = .error .configMissing
    ∧ Containers.GadgetData_init solve positions (some es) (some as0) eta γ kernel
        = .error .configBoth
    ∧ Containers.PressureEntropyData_init solve fuel positions none none eta γ kernel
        = .error .configMissing
    ∧ Containers.PressureEntropyData_init solve fuel positions (some es) (some as0)
        eta γ kernel = .error .configBoth :=
  ⟨rfl, rfl, rfl, rfl⟩

/-- C6 (corrected): counterexample.  The claim's "separation operation" also
names `GadgetData.separations` of the historical `src/containers.py`, which
returns the signed difference, not the absolute distance: at `radius = 1`,
`radii = [0]` it returns `[-1]`, a negative value, while the absolute
distance is `1`. -/
theorem legacy_separations_signed_counterexample :
    Legacy.separations 1 [0] = [-1] ∧ ¬ (0 : ℝ) ≤ -1 ∧ |(0 : ℝ) - 1| = 1 := by
  refine ⟨?_, by norm_num, by norm_num⟩
  simp [Legacy.separations]

/-- C6 (amended): `sph.separations` returns the absolute distances
`|r - p|` in the order of `rs` (the self entry, where `rs` holds `p`, being
`0`, and every entry non-negative), while the historical
`GadgetData.separations` of `src/containers.py` returns the signed
differences `r - p` instead. -/
theorem separations_abs_distances (p : ℝ) (rs : List ℝ) (j : ℕ)
    (hj : j < rs.length) :
    (Sph.separations p rs).length = rs.length
    ∧ (Sph.separations p rs).getD j 0 = |rs.getD j 0 - p|
    ∧ 0 ≤ (Sph.separations p rs).getD j 0
    ∧ (rs.getD j 0 = p → (Sph.separations p rs).getD j 0 = 0)
    ∧ (Legacy.separations p rs).getD j 0 = rs.getD j 0 - p := by
  have habs : (Sph.separations p rs).getD j 0 = |rs.getD j 0 - p| :=
    getD_map_of_lt _ rs j hj
  refine ⟨by simp [Sph.separations], habs, ?_, ?_, getD_map_of_lt _ rs j hj⟩
  · rw [habs]; exact abs_nonneg _
  · intro hp; rw [habs, hp, sub_self, abs_zero]

theorem separations_abs_distances_witness :
    0 < ([1, 3] : List ℝ).length
    ∧ ((Sph.separations 1 [1, 3]).length = ([1, 3] : List ℝ).length
      ∧ (Sph.separations 1 [1, 3]).getD 0 0 = |([1, 3] : List ℝ).getD 0 0 - 1|
      ∧ 0 ≤ (Sph.separations 1 [1, 3]).getD 0 0
      ∧ (([1, 3] : List ℝ).getD 0 0 = 1 → (Sph.separations 1 [1, 3]).getD 0 0 = 0)
      ∧ (Legacy.separations 1 [1, 3]).getD 0 0 = ([1, 3] : List ℝ).getD 0 0 - 1) :=
  ⟨by norm_num, separations_abs_distances 1 [1, 3] 0 (by norm_num)⟩

/-- C9 (confirmed): for a valid `index` (`-1`, meaning "this particle is not
in the array", or in range), `A_reduced` returns the entry array with at most
slot `index` replaced: with `index = -1` the array is returned unchanged,
every slot `j` other than `index` keeps its value, and on return slot
`index` holds the first component of the returned pair. -/
theorem A_reduced_frame (solve : RootSolver) (r A : List ℝ)
    (hsm energy initial : ℝ) (index : ℤ) (kernel : ℝ → ℝ → ℝ) (γ : ℝ)
    (tol : Option ℝ) (masses : Option (List ℝ)) (j : ℕ)
    (hvalid : index = -1 ∨ (0 ≤ index ∧ index < (A.length : ℤ))) :
    (index = -1 →
      (PressureEntropy.A_reduced solve r A hsm energy initial index kernel γ tol masses).2 = A)
    ∧ ((j : ℤ) ≠ index →
      (PressureEntropy.A_reduced solve r A hsm energy initial index kernel γ tol masses).2.getD j 0
        = A.getD j 0)
    ∧ (index ≠ -1 →
      (PressureEntropy.A_reduced solve r A hsm energy initial index kernel γ tol masses).2.getD
          index.toNat 0
        = (PressureEntropy.A_reduced solve r A hsm energy initial index kernel γ tol masses).1) := by
  rcases hvalid with hneg | ⟨h0, hlt⟩
  · subst hneg
    refine ⟨fun _ => ?_, fun _ => ?_, fun hne => absurd rfl hne⟩
    · rw [show (PressureEntropy.A_reduced solve r A hsm energy initial (-1) kernel γ tol masses).2
          = PressureEntropy.trialArray A (-1)
            (PressureEntropy.A_reduced solve r A hsm energy initial (-1) kernel γ tol masses).1
          from rfl, trialArray_neg_one]
    rw [show (PressureEntropy.A_reduced solve r A hsm energy initial (-1) kernel γ tol masses).2
        = PressureEntropy.trialArray A (-1)
          (PressureEntropy.A_reduced solve r A hsm energy initial (-1) kernel γ tol masses).1
        from rfl, trialArray_neg_one]
  · refine ⟨fun hneg => by omega, fun hne => trialArray_getD_ne A index _ j h0 hne,
      fun _ => trialArray_getD_self A index _ h0 hlt⟩

theorem A_reduced_frame_witness :
    ((0 : ℤ) = -1 ∨ ((0 : ℤ) ≤ 0 ∧ (0 : ℤ) < (([1, 2] : List ℝ).length : ℤ)))
    ∧ (((0 : ℤ) = -1 →
        (PressureEntropy.A_reduced solveInit [0] [1, 2] 1 1 5 0 Sph.gadget_kernel (4 / 3) none none).2
          = [1, 2])
      ∧ (((1 : ℕ) : ℤ) ≠ 0 →
        (PressureEntropy.A_reduced solveInit [0] [1, 2] 1 1 5 0 Sph.gadget_kernel (4 / 3) none none).2.getD 1 0
          = ([1, 2] : List ℝ).getD 1 0)
      ∧ ((0 : ℤ) ≠ -1 →
        (PressureEntropy.A_reduced solveInit [0] [1, 2] 1 1 5 0 Sph.gadget_kernel (4 / 3) none none).2.getD
            (0 : ℤ).toNat 0
          = (PressureEntropy.A_reduced solveInit [0] [1, 2] 1 1 5 0 Sph.gadget_kernel (4 / 3) none none).1)) :=
  ⟨Or.inr ⟨by norm_num, by norm_num⟩,
    A_reduced_frame solveInit [0] [1, 2] 1 1 5 0 Sph.gadget_kernel (4 / 3) none none 1
      (Or.inr ⟨by norm_num, by norm_num⟩)⟩

/-! Concrete evaluations shared by several claims' instances. -/

theorem gadget_kernel_at_zero (h : ℝ) : Sph.gadget_kernel 0 h = 4 / (3 * h) := by
  simp only [Sph.gadget_kernel]
  rw [if_pos (by rw [zero_div]; norm_num)]
  rw [zero_div]
  ring

theorem density_single_zero (h : ℝ) :
    Gadget.density [0] h none Sph.gadget_kernel = Sph.gadget_kernel 0 h := by
  simp [Gadget.density]

theorem tophat_kernel_zero_quarter : Sph.tophat_kernel 0 (1 / 4) = 2 := by
  simp only [Sph.tophat_kernel]
  rw [if_pos (by norm_num)]
  norm_num

theorem pressure_c1_instance :
    PressureEntropy.pressure [0] [1] (1 / 4) Sph.tophat_kernel 2 none = 4 := by
  simp only [PressureEntropy.pressure, List.map_cons, List.map_nil,
    List.zip_cons_cons, List.zip_nil_right, List.sum_cons, List.sum_nil,
    Real.one_rpow, tophat_kernel_zero_quarter]
  rw [show (2:ℝ) * 1 + 0 = ((2:ℕ):ℝ) by norm_num,
    show (2:ℝ) = ((2:ℕ):ℝ) by norm_num, Real.rpow_natCast]
  norm_num

theorem P_sum_spec_c1_instance :
    PressureEntropy.P_sum_spec [0] [1] (1 / 4) Sph.tophat_kernel 2 none = 2 := by
  simp only [PressureEntropy.P_sum_spec, List.map_cons, List.map_nil,
    List.zip_cons_cons, List.zip_nil_right, List.sum_cons, List.sum_nil,
    Real.one_rpow, tophat_kernel_zero_quarter]
  norm_num

theorem P_calc_c1_instance : PressureEntropy.P_calc 1 2 2 = 4 := by
  simp only [PressureEntropy.P_calc]
  rw [show (2:ℝ) / 1 * (2 - 1) = ((2:ℕ):ℝ) by norm_num,
    show (2:ℝ) / (2 - 1) = ((2:ℕ):ℝ) by norm_num, Real.rpow_natCast]
  norm_num

/-- C1 (corrected): counterexample.  The objective of `A_reduced`'s nested
root search divides by `P_calc` the source's `pressure`, which is the γ-th
power of the raw kernel-weighted sum, not the raw sum itself: at `r = [0]`,
`A = [1]`, `h = 1/4`, `γ = 2`, `u = 2`, `index = -1`, trial value `1`, the
objective is `0` although the raw sum (`2`) differs from
`P_calc = A*((u/A)*(γ-1))^(γ/(γ-1)) = 4`. -/
theorem A_reduced_objective_rawsum_counterexample :
    PressureEntropy.to_reduce [0] [1] (1 / 4) 2 (-1) Sph.tophat_kernel 2 none 1 = 0
    ∧ PressureEntropy.P_sum_spec [0] (PressureEntropy.trialArray [1] (-1) 1) (1 / 4)
        Sph.tophat_kernel 2 none
      ≠ PressureEntropy.P_calc 1 2 2 := by
  have htr : PressureEntropy.trialArray [1] (-1) 1 = [1] := trialArray_neg_one _ _
  constructor
  · simp only [PressureEntropy.to_reduce, htr, pressure_c1_instance, P_calc_c1_instance]
    norm_num
  · rw [htr, P_sum_spec_c1_instance, P_calc_c1_instance]
    norm_num

/-- C1 (amended): the nested root search's objective is zero exactly when the
source's `pressure` — the γ-th power of the raw kernel-weighted sum
`Σ_j W(r_ij, h_i)·A_j^(1/γ)` (optionally mass-weighted), evaluated on the
array with the trial value written into slot `index` — equals
`P_calc = A_i·((u_i/A_i)·(γ−1))^(γ/(γ−1))`, provided `P_calc ≠ 0`. -/
theorem A_reduced_objective_zero_iff (r A : List ℝ) (hsm energy : ℝ)
    (index : ℤ) (kernel : ℝ → ℝ → ℝ) (γ : ℝ) (masses : Option (List ℝ))
    (this_A : ℝ) (hpc : PressureEntropy.P_calc this_A energy γ ≠ 0) :
    PressureEntropy.to_reduce r A hsm energy index kernel γ masses this_A = 0
      ↔ PressureEntropy.pressure r (PressureEntropy.trialArray A index this_A)
          hsm kernel γ masses
        = PressureEntropy.P_calc this_A energy γ := by
  unfold PressureEntropy.to_reduce
  rw [sub_eq_zero, eq_comm, div_eq_one_iff_eq hpc]

theorem A_reduced_objective_zero_iff_witness :
    PressureEntropy.P_calc 1 2 2 ≠ 0
    ∧ (PressureEntropy.to_reduce [0] [1] (1 / 4) 2 (-1) Sph.tophat_kernel 2 none 1 = 0
      ↔ PressureEntropy.pressure [0] (PressureEntropy.trialArray [1] (-1) 1) (1 / 4)
          Sph.tophat_kernel 2 none
        = PressureEntropy.P_calc 1 2 2) :=
  ⟨by rw [P_calc_c1_instance]; norm_num,
    A_reduced_objective_zero_iff [0] [1] (1 / 4) 2 (-1) Sph.tophat_kernel 2 none 1
      (by rw [P_calc_c1_instance]; norm_num)⟩

/-- C2 (corrected): counterexample.  At `r = [0]`, `mass = 1`, `eta = 1`,
`tol = 1/100` the residual `(h/(mass·eta))·density([0], h) − 1` equals `1/3`
for every positive `h` (it is constant in `h`), so no root exists and the
smoothing length the code returns — here, with a solver that returns the
initial guess, `h∗ = 1` — violates the claimed bound `|residual| ≤ tol`. -/
theorem h_residual_counterexample :
    Gadget.h solveInit [0] 1 1 1 (some (1 / 100)) none = 1
    ∧ |Gadget.h solveInit [0] 1 1 1 (some (1 / 100)) none / (1 * 1)
        * Gadget.density [0] (Gadget.h solveInit [0] 1 1 1 (some (1 / 100)) none)
            none Sph.gadget_kernel - 1| = 1 / 3
    ∧ ¬ |Gadget.h solveInit [0] 1 1 1 (some (1 / 100)) none / (1 * 1)
        * Gadget.density [0] (Gadget.h solveInit [0] 1 1 1 (some (1 / 100)) none)
            none Sph.gadget_kernel - 1| ≤ 1 / 100 := by
  have hres : Gadget.h solveInit [0] 1 1 1 (some (1 / 100)) none = 1 := rfl
  have habs : |(1:ℝ) / (1 * 1)
      * Gadget.density [0] 1 none Sph.gadget_kernel - 1| = 1 / 3 := by
    rw [density_single_zero, gadget_kernel_at_zero]
    rw [show (1:ℝ) / (1 * 1) * (4 / (3 * 1)) - 1 = 1 / 3 by norm_num]
    rw [abs_of_nonneg (by norm_num : (0:ℝ) ≤ 1 / 3)]
  rw [hres]
  exact ⟨rfl, habs, by rw [habs]; norm_num⟩

/-- C2 (amended): the solver's objective is exactly
`(h/(mass·eta))·density(separations, h) − 1`, so whenever the root search
converges — i.e. its returned estimate `h∗` satisfies
`|to_reduce h∗| ≤ tol` — the returned smoothing length satisfies
`|(h∗/(mass·eta))·density(sep, h∗) − 1| ≤ tol`.  (When the search does not
converge the source still returns the estimate, and no bound holds: see the
counterexample.) -/
theorem h_residual_le_tol_of_converged (solve : RootSolver) (r : List ℝ)
    (initial mass eta tolv : ℝ) (tol : Option ℝ) (masses : Option (List ℝ))
    (hconv : |Gadget.to_reduce r mass eta masses
        (Gadget.h solve r initial mass eta tol masses)| ≤ tolv) :
    |Gadget.h solve r initial mass eta tol masses / (mass * eta)
      * Gadget.density r (Gadget.h solve r initial mass eta tol masses)
          masses Sph.gadget_kernel - 1| ≤ tolv := by
  simpa [Gadget.to_reduce] using hconv

theorem h_residual_le_tol_of_converged_witness :
    |Gadget.to_reduce [0] 1 (4 / 3) none
        (Gadget.h solveInit [0] 1 1 (4 / 3) (some (1 / 100)) none)| ≤ 1 / 100
    ∧ |Gadget.h solveInit [0] 1 1 (4 / 3) (some (1 / 100)) none / (1 * (4 / 3))
        * Gadget.density [0] (Gadget.h solveInit [0] 1 1 (4 / 3) (some (1 / 100)) none)
            none Sph.gadget_kernel - 1| ≤ 1 / 100 := by
  have hconv : |Gadget.to_reduce [0] 1 (4 / 3) none
      (Gadget.h solveInit [0] 1 1 (4 / 3) (some (1 / 100)) none)| ≤ 1 / 100 := by
    have hres : Gadget.h solveInit [0] 1 1 (4 / 3) (some (1 / 100)) none = 1 := rfl
    rw [hres]
    simp only [Gadget.to_reduce, density_single_zero, gadget_kernel_at_zero]
    rw [show (1:ℝ) / (1 * (4 / 3)) * (4 / (3 * 1)) - 1 = 0 by norm_num, abs_zero]
    norm_num
  exact ⟨hconv,
    h_residual_le_tol_of_converged solveInit [0] 1 1 (4 / 3) (1 / 100)
      (some (1 / 100)) none hconv⟩

/-- C5 (corrected): counterexample.  At `r = [0]`, `eta = 2`, `tol = 1/100`
the code returns the root finder's estimate (here the initial guess `2`) as
a plain real number — its result type has no error outcome at all — although
the estimate's residual is `1/3 > tol`: the non-convergence is silent, and
no particle index is attributed. -/
theorem h_silent_unconverged_counterexample :
    Gadget.h solveInit [0] 2 1 2 (some (1 / 100)) none = 2
    ∧ |Gadget.to_reduce [0] 1 2 none
        (Gadget.h solveInit [0] 2 1 2 (some (1 / 100)) none)| = 1 / 3
    ∧ ¬ |Gadget.to_reduce [0] 1 2 none
        (Gadget.h solveInit [0] 2 1 2 (some (1 / 100)) none)| ≤ 1 / 100 := by
  have hres : Gadget.h solveInit [0] 2 1 2 (some (1 / 100)) none = 2 := rfl
  have habs : |Gadget.to_reduce [0] 1 2 none (2:ℝ)| = 1 / 3 := by
    simp only [Gadget.to_reduce, density_single_zero, gadget_kernel_at_zero]
    rw [show (2:ℝ) / (1 * 2) * (4 / (3 * 2)) - 1 = -(1 / 3) by norm_num, abs_neg]
    rw [abs_of_nonneg (by norm_num : (0:ℝ) ≤ 1 / 3)]
  rw [hres]
  exact ⟨rfl, habs, by rw [habs]; norm_num⟩

/-- C5 (amended): the smoothing-length routine signals nothing: for every
input it returns the root finder's raw estimate unconditionally (its result
is a plain real, with no error case and no particle index), and there are
inputs on which the returned estimate's residual exceeds the tolerance yet
it is returned silently. -/
theorem h_returns_estimate_unconditionally :
    (∀ (solve : RootSolver) (r : List ℝ) (initial mass eta : ℝ)
      (tol : Option ℝ) (masses : Option (List ℝ)),
      Gadget.h solve r initial mass eta tol masses
        = solve (Gadget.to_reduce r mass eta masses) initial tol)
    ∧ (∃ x : ℝ, Gadget.h solveInit [0] 2 1 2 (some (1 / 100)) none = x
        ∧ 1 / 100 < |Gadget.to_reduce [0] 1 2 none x|) := by
  refine ⟨fun _ _ _ _ _ _ _ => rfl, ⟨2, rfl, ?_⟩⟩
  have habs : |Gadget.to_reduce [0] 1 2 none (2:ℝ)| = 1 / 3 := by
    simp only [Gadget.to_reduce, density_single_zero, gadget_kernel_at_zero]
    rw [show (2:ℝ) / (1 * 2) * (4 / (3 * 2)) - 1 = -(1 / 3) by norm_num, abs_neg]
    rw [abs_of_nonneg (by norm_num : (0:ℝ) ≤ 1 / 3)]
  rw [habs]
  norm_num

/-! The Gauss-Seidel sweep: slot bookkeeping lemmas. -/

theorem sweepStep_eq (solve : RootSolver) (r hs us : List ℝ)
    (kernel : ℝ → ℝ → ℝ) (γ : ℝ) (old arr : List ℝ) (i : ℕ) :
    Containers.sweepStep solve r hs us kernel γ old arr i
      = PressureEntropy.trialArray arr (i : ℤ)
          ((PressureEntropy.A_reduced solve (Sph.separations (r.getD i 0) r) arr
            (hs.getD i 0) (us.getD i 0) (old.getD i 0) (i : ℤ) kernel γ none
            none).1) := rfl

theorem sweepUpto_succ (solve : RootSolver) (r hs us : List ℝ)
    (kernel : ℝ → ℝ → ℝ) (γ : ℝ) (old arr0 : List ℝ) (i : ℕ) :
    Containers.sweepUpto solve r hs us kernel γ old arr0 (i + 1)
      = PressureEntropy.trialArray
          (Containers.sweepUpto solve r hs us kernel γ old arr0 i) (i : ℤ)
          (Containers.convA solve r hs us kernel γ old arr0 i) := rfl

theorem sweepUpto_length (solve : RootSolver) (r hs us : List ℝ)
    (kernel : ℝ → ℝ → ℝ) (γ : ℝ) (old arr0 : List ℝ) :
    ∀ n : ℕ,
      (Containers.sweepUpto solve r hs us kernel γ old arr0 n).length = arr0.length
  | 0 => rfl
  | n + 1 => by
      rw [sweepUpto_succ, trialArray_length,
        sweepUpto_length solve r hs us kernel γ old arr0 n]

theorem sweepUpto_slot_of_ge (solve : RootSolver) (r hs us : List ℝ)
    (kernel : ℝ → ℝ → ℝ) (γ : ℝ) (old arr0 : List ℝ) :
    ∀ i j : ℕ, i ≤ j →
      (Containers.sweepUpto solve r hs us kernel γ old arr0 i).getD j 0
        = arr0.getD j 0
  | 0, _, _ => rfl
  | i + 1, j, hij => by
      rw [sweepUpto_succ,
        trialArray_getD_ne _ _ _ j (by omega) (by omega),
        sweepUpto_slot_of_ge solve r hs us kernel γ old arr0 i j (by omega)]

theorem sweepUpto_slot_of_lt (solve : RootSolver) (r hs us : List ℝ)
    (kernel : ℝ → ℝ → ℝ) (γ : ℝ) (old arr0 : List ℝ) :
    ∀ i j : ℕ, j < i → j < arr0.length →
      (Containers.sweepUpto solve r hs us kernel γ old arr0 i).getD j 0
        = Containers.convA solve r hs us kernel γ old arr0 j
  | i + 1, j, hji, hjlen => by
      rw [sweepUpto_succ]
      rcases Nat.lt_or_ge j i with hlt | hge
      · rw [trialArray_getD_ne _ _ _ j (by omega) (by omega)]
        exact sweepUpto_slot_of_lt solve r hs us kernel γ old arr0 i j hlt hjlen
      · have hji' : j = i := by omega
        subst hji'
        have hlt' : (j : ℤ) < ((Containers.sweepUpto solve r hs us kernel γ old
            arr0 j).length : ℤ) := by
          rw [sweepUpto_length solve r hs us kernel γ old arr0 j]; omega
        have := trialArray_getD_self
          (Containers.sweepUpto solve r hs us kernel γ old arr0 j) (j : ℤ)
          (Containers.convA solve r hs us kernel γ old arr0 j) (by omega) hlt'
        simpa using this

/-- C3 (confirmed): Gauss-Seidel semantics of the shared adiabat array during
one sweep of `minimise_A` (whose sweeps start with `new` holding the previous
sweep's values `old`, since `old = A.copy(); new = old.copy()` and after each
sweep `old = new.copy()`).  At the start of particle `i`'s nested root
search, every slot `j < i` holds the value this sweep's search converged to
for particle `j`, and every slot `j ≥ i` still holds the previous sweep's
value; the array the objective reads at trial value `t` is the current array
with slot `i` overwritten by `t` and all other slots untouched; and once
particle `i`'s search finishes, slot `i` holds the converged value for the
rest of the sweep. -/
theorem sweep_gauss_seidel_invariant (solve : RootSolver) (r hs us : List ℝ)
    (kernel : ℝ → ℝ → ℝ) (γ : ℝ) (old : List ℝ) (i j i' : ℕ) (t : ℝ)
    (hi : i < Containers.sweepLen old hs us) (hj : j < old.length)
    (hii' : i < i') (hi'le : i' ≤ Containers.sweepLen old hs us) :
    (j < i →
      (Containers.sweepUpto solve r hs us kernel γ old old i).getD j 0
        = Containers.convA solve r hs us kernel γ old old j)
    ∧ (i ≤ j →
      (Containers.sweepUpto solve r hs us kernel γ old old i).getD j 0
        = old.getD j 0)
    ∧ (PressureEntropy.trialArray
        (Containers.sweepUpto solve r hs us kernel γ old old i) (i : ℤ) t).getD i 0 = t
    ∧ ((j : ℤ) ≠ (i : ℤ) →
      (PressureEntropy.trialArray
        (Containers.sweepUpto solve r hs us kernel γ old old i) (i : ℤ) t).getD j 0
        = (Containers.sweepUpto solve r hs us kernel γ old old i).getD j 0)
    ∧ (Containers.sweepUpto solve r hs us kernel γ old old (i + 1)).getD i 0
        = Containers.convA solve r hs us kernel γ old old i
    ∧ (Containers.sweepUpto solve r hs us kernel γ old old i').getD i 0
        = Containers.convA solve r hs us kernel γ old old i := by
  have hiold : i < old.length := by
    have := Nat.min_le_left old.length (min hs.length us.length)
    unfold Containers.sweepLen at hi
    omega
  refine ⟨fun hji => sweepUpto_slot_of_lt solve r hs us kernel γ old old i j hji
      (by omega),
    fun hij => sweepUpto_slot_of_ge solve r hs us kernel γ old old i j hij, ?_, ?_, ?_, ?_⟩
  · have hlt' : (i : ℤ) < ((Containers.sweepUpto solve r hs us kernel γ old
        old i).length : ℤ) := by
      rw [sweepUpto_length solve r hs us kernel γ old old i]; omega
    have := trialArray_getD_self
      (Containers.sweepUpto solve r hs us kernel γ old old i) (i : ℤ) t
      (by omega) hlt'
    simpa using this
  · exact fun hne => trialArray_getD_ne _ _ _ j (by omega) hne
  · exact sweepUpto_slot_of_lt solve r hs us kernel γ old old (i + 1) i
      (by omega) (by omega)
  · exact sweepUpto_slot_of_lt solve r hs us kernel γ old old i' i hii'
      (by omega)

theorem sweep_gauss_seidel_invariant_witness :
    ((1 : ℕ) < Containers.sweepLen [5, 7] [1, 1] [1, 1]
      ∧ (0 : ℕ) < ([5, 7] : List ℝ).length
      ∧ (1 : ℕ) < 2 ∧ (2 : ℕ) ≤ Containers.sweepLen [5, 7] [1, 1] [1, 1])
    ∧ (((0 : ℕ) < 1 →
        (Containers.sweepUpto solvePlusOne [0, 1] [1, 1] [1, 1] Sph.gadget_kernel
          (4 / 3) [5, 7] [5, 7] 1).getD 0 0
          = Containers.convA solvePlusOne [0, 1] [1, 1] [1, 1] Sph.gadget_kernel
            (4 / 3) [5, 7] [5, 7] 0)
      ∧ ((1 : ℕ) ≤ 0 →
        (Containers.sweepUpto solvePlusOne [0, 1] [1, 1] [1, 1] Sph.gadget_kernel
          (4 / 3) [5, 7] [5, 7] 1).getD 0 0 = ([5, 7] : List ℝ).getD 0 0)
      ∧ (PressureEntropy.trialArray
          (Containers.sweepUpto solvePlusOne [0, 1] [1, 1] [1, 1] Sph.gadget_kernel
            (4 / 3) [5, 7] [5, 7] 1) ((1 : ℕ) : ℤ) 9).getD 1 0 = 9
      ∧ (((0 : ℕ) : ℤ) ≠ ((1 : ℕ) : ℤ) →
        (PressureEntropy.trialArray
          (Containers.sweepUpto solvePlusOne [0, 1] [1, 1] [1, 1] Sph.gadget_kernel
            (4 / 3) [5, 7] [5, 7] 1) ((1 : ℕ) : ℤ) 9).getD 0 0
          = (Containers.sweepUpto solvePlusOne [0, 1] [1, 1] [1, 1] Sph.gadget_kernel
            (4 / 3) [5, 7] [5, 7] 1).getD 0 0)
      ∧ (Containers.sweepUpto solvePlusOne [0, 1] [1, 1] [1, 1] Sph.gadget_kernel
          (4 / 3) [5, 7] [5, 7] (1 + 1)).getD 1 0
          = Containers.convA solvePlusOne [0, 1] [1, 1] [1, 1] Sph.gadget_kernel
            (4 / 3) [5, 7] [5, 7] 1
      ∧ (Containers.sweepUpto solvePlusOne [0, 1] [1, 1] [1, 1] Sph.gadget_kernel
          (4 / 3) [5, 7] [5, 7] 2).getD 1 0
          = Containers.convA solvePlusOne [0, 1] [1, 1] [1, 1] Sph.gadget_kernel
            (4 / 3) [5, 7] [5, 7] 1) :=
  ⟨⟨by norm_num [Containers.sweepLen], by norm_num, by norm_num,
      by norm_num [Containers.sweepLen]⟩,
    sweep_gauss_seidel_invariant solvePlusOne [0, 1] [1, 1] [1, 1]
      Sph.gadget_kernel (4 / 3) [5, 7] 1 0 2 9
      (by norm_num [Containers.sweepLen]) (by norm_num) (by norm_num)
      (by norm_num [Containers.sweepLen])⟩

/-! The outer `minimise_A` loop. -/

theorem minimiseLoop_succ (solve : RootSolver) (r hs us : List ℝ)
    (kernel : ℝ → ℝ → ℝ) (γ tol : ℝ) (n : ℕ) (old new : List ℝ) :
    Containers.minimiseLoop solve r hs us kernel γ tol (n + 1) old new
      = if Sph.diff old (Containers.sweep solve r hs us kernel γ old new) ≤ tol
        then some (Containers.sweep solve r hs us kernel γ old new)
        else Containers.minimiseLoop solve r hs us kernel γ tol n
          (Containers.sweep solve r hs us kernel γ old new)
          (Containers.sweep solve r hs us kernel γ old new) := rfl

theorem sweep_singleton_plusOne (a : ℝ) :
    Containers.sweep solvePlusOne [0] [1] [1] Sph.gadget_kernel (4 / 3) [a] [a]
      = [a + 1] := rfl

theorem minimiseLoop_plusOne_none :
    ∀ (n : ℕ) (a : ℝ),
      Containers.minimiseLoop solvePlusOne [0] [1] [1] Sph.gadget_kernel (4 / 3)
        (1 / 10000000) n [a] [a] = none
  | 0, _ => rfl
  | n + 1, a => by
      rw [minimiseLoop_succ, sweep_singleton_plusOne]
      have hdiff : Sph.diff [a] [a + 1] = 1 := by
        simp only [Sph.diff, List.zip_cons_cons, List.zip_nil_right,
          List.map_cons, List.map_nil, List.sum_cons, List.sum_nil]
        rw [show a - (a + 1) = -1 by ring, abs_neg, abs_one, add_zero]
      rw [hdiff, if_neg (by norm_num : ¬ (1 : ℝ) ≤ 1 / 10000000)]
      exact minimiseLoop_plusOne_none n (a + 1)

/-- C4 (corrected): counterexample.  `minimise_A` in the source has no
maximum-sweep budget and no Divergence outcome: its loop runs `while
difference > tol` unboundedly.  With an inner solver that moves every adiabat
by one each sweep, the post-sweep difference is always `1 > 1e-7`, so for the
single-particle input `positions = [0]`, `h = [1]`, `u = [1]`, `A = [1]`
there is no number of sweeps after which the loop has stopped — and no error
is ever raised, the loop is simply still running. -/
theorem minimise_A_no_budget_counterexample :
    ¬ ∃ (n : ℕ) (res : List ℝ),
      Containers.minimise_A solvePlusOne n [1] [0] [1] [1] Sph.gadget_kernel
        (1 / 10000000) (4 / 3) = some res := by
  rintro ⟨n, res, hres⟩
  rw [show Containers.minimise_A solvePlusOne n [1] [0] [1] [1] Sph.gadget_kernel
        (1 / 10000000) (4 / 3)
      = Containers.minimiseLoop solvePlusOne [0] [1] [1] Sph.gadget_kernel (4 / 3)
        (1 / 10000000) n [1] [1] from rfl,
    minimiseLoop_plusOne_none n 1] at hres
  exact Option.noConfusion hres

/-- C4 (amended): the outer sweep loop stops exactly when the post-sweep sum
`Σ|A_old_i − A_new_i|` is at most `tol` (source default `1e-7`): whenever the
loop returns a result, that result is the outcome of a final sweep whose
pre-sweep array `o` satisfies `diff o result ≤ tol`.  The reference imposes
no maximum-sweep budget and raises no Divergence error — on inputs whose
sweeps never contract the loop simply never stops (see the counterexample). -/
theorem minimiseLoop_stops_only_converged (solve : RootSolver) (r hs us : List ℝ)
    (kernel : ℝ → ℝ → ℝ) (γ tol : ℝ) (n : ℕ) (old new res : List ℝ)
    (hres : Containers.minimiseLoop solve r hs us kernel γ tol n old new
      = some res) :
    ∃ o nw, res = Containers.sweep solve r hs us kernel γ o nw
      ∧ Sph.diff o res ≤ tol := by
  induction n generalizing old new with
  | zero => exact Option.noConfusion hres
  | succ n ih =>
      rw [minimiseLoop_succ] at hres
      split_ifs at hres with hd
      · obtain rfl : Containers.sweep solve r hs us kernel γ old new = res := by
          injection hres
        exact ⟨old, new, rfl, hd⟩
      · exact ih _ _ hres

theorem minimiseLoop_stops_only_converged_witness :
    Containers.minimiseLoop solveInit [0] [1] [1] Sph.gadget_kernel (4 / 3) 1 1
        [1] [1] = some [1]
    ∧ ∃ o nw, ([1] : List ℝ) = Containers.sweep solveInit [0] [1] [1]
        Sph.gadget_kernel (4 / 3) o nw ∧ Sph.diff o [1] ≤ 1 := by
  have hsweep : Containers.sweep solveInit [0] [1] [1] Sph.gadget_kernel (4 / 3)
      [1] [1] = [1] := rfl
  have hloop : Containers.minimiseLoop solveInit [0] [1] [1] Sph.gadget_kernel
      (4 / 3) 1 1 [1] [1] = some [1] := by
    show Containers.minimiseLoop solveInit [0] [1] [1] Sph.gadget_kernel
      (4 / 3) 1 (0 + 1) [1] [1] = some [1]
    rw [minimiseLoop_succ, hsweep]
    have hdiff : Sph.diff [1] ([1] : List ℝ) = 0 := by
      simp [Sph.diff]
    rw [hdiff, if_pos (by norm_num : (0 : ℝ) ≤ 1)]
  exact ⟨hloop, minimiseLoop_stops_only_converged solveInit [0] [1] [1]
    Sph.gadget_kernel (4 / 3) 1 1 [1] [1] [1] hloop⟩

/-! Kernel non-negativity and compact support. -/

theorem gadget_kernel_nonneg (r h : ℝ) (hr : 0 ≤ r) (hh : 0 < h) :
    0 ≤ Sph.gadget_kernel r h := by
  simp only [Sph.gadget_kernel]
  have hf0 : 0 ≤ r / h := div_nonneg hr hh.le
  have hpre : 0 ≤ 4 / (3 * h) := by positivity
  split_ifs with h1 h2
  · apply mul_nonneg hpre
    have h2f : 0 ≤ 1 - 2 * (r / h) := by linarith
    have ha : 0 ≤ r / h * (1 - 2 * (r / h)) := mul_nonneg hf0 h2f
    have hb : 0 ≤ 1 + 2 * (r / h) - 4 * (r / h) ^ 2 := by nlinarith
    nlinarith [mul_nonneg h2f hb]
  · apply mul_nonneg hpre
    have h1f : 0 ≤ 1 - r / h := by linarith
    have h2 : (0:ℝ) ≤ 2 := by norm_num
    exact mul_nonneg (mul_nonneg (mul_nonneg h2 h1f) h1f) h1f
  · rw [mul_zero]

theorem gadget_kernel_support (r h : ℝ) (hh : 0 < h) (hr : h ≤ r) :
    Sph.gadget_kernel r h = 0 := by
  simp only [Sph.gadget_kernel]
  have hf1 : 1 ≤ r / h := (one_le_div hh).mpr hr
  rw [if_neg (by intro hc; linarith : ¬ r / h ≤ 1 / 2)]
  by_cases h2 : r / h ≤ 1
  · rw [if_pos h2]
    have he : r / h = 1 := le_antisymm h2 hf1
    rw [he]
    ring
  · rw [if_neg h2, mul_zero]

theorem cubic_kernel_nonneg (r h : ℝ) (hr : 0 ≤ r) (hh : 0 < h) :
    0 ≤ Sph.cubic_kernel r h := by
  simp only [Sph.cubic_kernel]
  have hf0 : 0 ≤ r / h := div_nonneg hr hh.le
  have hpre : 0 ≤ 2 / (3 * h) := by positivity
  split_ifs with h1 h2
  · apply mul_nonneg hpre
    have h1f : 0 ≤ 1 - r / h := by linarith
    have ha : 0 ≤ r / h * (1 - r / h) := mul_nonneg hf0 h1f
    have hb : 0 ≤ 1 + r / h - (r / h) ^ 2 := by nlinarith
    nlinarith [mul_nonneg h1f hb]
  · apply mul_nonneg hpre
    have h2f : 0 ≤ 2 - r / h := by linarith
    have := pow_nonneg h2f 3
    nlinarith
  · rw [mul_zero]

theorem cubic_kernel_support (r h : ℝ) (hh : 0 < h) (hr : 2 * h ≤ r) :
    Sph.cubic_kernel r h = 0 := by
  simp only [Sph.cubic_kernel]
  have hf2 : 2 ≤ r / h := (le_div_iff₀ hh).mpr hr
  rw [if_neg (by intro hc; linarith : ¬ r / h < 1),
    if_neg (not_lt.mpr hf2), mul_zero]

theorem quintic_kernel_nonneg (r h : ℝ) (hr : 0 ≤ r) (hh : 0 < h) :
    0 ≤ Sph.quintic_kernel r h := by
  simp only [Sph.quintic_kernel]
  have hq0 : 0 ≤ r / h := div_nonneg hr hh.le
  have hpre : 0 ≤ 1 / (120 * h) := by positivity
  split_ifs with h1 h2 h3
  · refine mul_nonneg ?_ hpre
    have h4 : 0 ≤ (r / h) ^ 4 := pow_nonneg hq0 4
    have h5 : (r / h) ^ 5 ≤ (r / h) ^ 4 := by
      nlinarith [mul_nonneg h4 (by linarith : (0:ℝ) ≤ 1 - r / h)]
    have hsq : (r / h) ^ 2 ≤ 1 := by
      nlinarith [mul_nonneg hq0 (by linarith : (0:ℝ) ≤ 1 - r / h)]
    nlinarith
  · refine mul_nonneg ?_ hpre
    have hb0 : 0 ≤ 2 - r / h := by linarith
    have hb4 : 0 ≤ (2 - r / h) ^ 4 := pow_nonneg hb0 4
    have hb2 : 0 ≤ (2 - r / h) ^ 2 := pow_nonneg hb0 2
    have hb3 : 0 ≤ (2 - r / h) ^ 3 := pow_nonneg hb0 3
    have hq1 : (0:ℝ) ≤ r / h - 1 := by linarith
    nlinarith [mul_nonneg hb4 hq1, mul_nonneg hb0 hq1]
  · refine mul_nonneg ?_ hpre
    have hb0 : 0 ≤ 3 - r / h := by linarith
    exact pow_nonneg hb0 5
  · rw [zero_mul]

theorem quintic_kernel_support (r h : ℝ) (hh : 0 < h) (hr : 3 * h ≤ r) :
    Sph.quintic_kernel r h = 0 := by
  simp only [Sph.quintic_kernel]
  have hf3 : 3 ≤ r / h := (le_div_iff₀ hh).mpr hr
  rw [if_neg (by intro hc; linarith : ¬ r / h < 1),
    if_neg (by intro hc; linarith : ¬ r / h < 2),
    if_neg (not_lt.mpr hf3), zero_mul]

theorem gaussian_kernel_nonneg (r h : ℝ) : 0 ≤ Sph.gaussian_kernel r h := by
  simp only [Sph.gaussian_kernel]
  exact mul_nonneg (div_nonneg zero_le_one (Real.sqrt_nonneg _)) (Real.exp_pos _).le

theorem tophat_kernel_nonneg (r h : ℝ) (hh : 0 < h) :
    0 ≤ Sph.tophat_kernel r h := by
  simp only [Sph.tophat_kernel]
  split_ifs
  · positivity
  · exact le_rfl

theorem tophat_kernel_support (r h : ℝ) (hh : 0 < h) (hr : h ≤ r) :
    Sph.tophat_kernel r h = 0 := by
  simp only [Sph.tophat_kernel]
  rw [if_neg (not_lt.mpr ((one_le_div hh).mpr hr))]

theorem triangle_kernel_nonneg (r h : ℝ) (hr : 0 ≤ r) (hh : 0 < h) :
    0 ≤ Sph.triangle_kernel r h := by
  simp only [Sph.triangle_kernel]
  split_ifs with h1
  · have : 0 ≤ 1 - r / h := by linarith
    have hpre : 0 ≤ 1 / h := by positivity
    exact mul_nonneg this hpre
  · exact le_rfl

theorem triangle_kernel_support (r h : ℝ) (hh : 0 < h) (hr : h ≤ r) :
    Sph.triangle_kernel r h = 0 := by
  simp only [Sph.triangle_kernel]
  rw [if_neg (not_lt.mpr ((one_le_div hh).mpr hr))]

/-- C8 (corrected): counterexample.  The gaussian kernel is one of the
supported kernel variants, but it has no compact support radius: there is no
positive `s` such that `gaussian_kernel r h = 0` for all `h > 0` and all
`r ≥ s·h` — the kernel is strictly positive at every separation. -/
theorem gaussian_kernel_no_compact_support :
    ¬ ∃ s : ℝ, 0 < s ∧ ∀ h : ℝ, 0 < h → ∀ r : ℝ, s * h ≤ r →
      Sph.gaussian_kernel r h = 0 := by
  rintro ⟨s, hs, hall⟩
  have h0 := hall 1 one_pos (max s 1) (by rw [mul_one]; exact le_max_left s 1)
  have hpos : 0 < Sph.gaussian_kernel (max s 1) 1 := by
    simp only [Sph.gaussian_kernel]
    apply mul_pos
    · apply div_pos one_pos
      apply Real.sqrt_pos.mpr
      positivity
    · exact Real.exp_pos _
  rw [h0] at hpos
  exact lt_irrefl 0 hpos

/-- C8 (amended): every supported kernel variant is non-negative for
`r ≥ 0` and `h > 0`, and every compactly supported variant — gadget
(support radius 1), cubic (2), quintic (3), tophat (1), triangle (1) —
evaluates to `0` for every `r` at or beyond its support radius times `h`.
The gaussian variant, by contrast, has no compact support: it is strictly
positive everywhere (see the counterexample). -/
theorem kernels_nonneg_and_compact_support (r h : ℝ) (hr : 0 ≤ r) (hh : 0 < h) :
    (0 ≤ Sph.gadget_kernel r h ∧ 0 ≤ Sph.cubic_kernel r h
      ∧ 0 ≤ Sph.quintic_kernel r h ∧ 0 ≤ Sph.gaussian_kernel r h
      ∧ 0 ≤ Sph.tophat_kernel r h ∧ 0 ≤ Sph.triangle_kernel r h)
    ∧ ((1 * h ≤ r → Sph.gadget_kernel r h = 0)
      ∧ (2 * h ≤ r → Sph.cubic_kernel r h = 0)
      ∧ (3 * h ≤ r → Sph.quintic_kernel r h = 0)
      ∧ (1 * h ≤ r → Sph.tophat_kernel r h = 0)
      ∧ (1 * h ≤ r → Sph.triangle_kernel r h = 0)) :=
  ⟨⟨gadget_kernel_nonneg r h hr hh, cubic_kernel_nonneg r h hr hh,
      quintic_kernel_nonneg r h hr hh, gaussian_kernel_nonneg r h,
      tophat_kernel_nonneg r h hh, triangle_kernel_nonneg r h hr hh⟩,
    fun hs => gadget_kernel_support r h hh (by linarith),
    fun hs => cubic_kernel_support r h hh hs,
    fun hs => quintic_kernel_support r h hh hs,
    fun hs => tophat_kernel_support r h hh (by linarith),
    fun hs => triangle_kernel_support r h hh (by linarith)⟩

theorem kernels_nonneg_and_compact_support_witness :
    ((0:ℝ) ≤ 5 ∧ (0:ℝ) < 1)
    ∧ ((0 ≤ Sph.gadget_kernel 5 1 ∧ 0 ≤ Sph.cubic_kernel 5 1
        ∧ 0 ≤ Sph.quintic_kernel 5 1 ∧ 0 ≤ Sph.gaussian_kernel 5 1
        ∧ 0 ≤ Sph.tophat_kernel 5 1 ∧ 0 ≤ Sph.triangle_kernel 5 1)
      ∧ ((1 * 1 ≤ (5:ℝ) → Sph.gadget_kernel 5 1 = 0)
        ∧ (2 * 1 ≤ (5:ℝ) → Sph.cubic_kernel 5 1 = 0)
        ∧ (3 * 1 ≤ (5:ℝ) → Sph.quintic_kernel 5 1 = 0)
        ∧ (1 * 1 ≤ (5:ℝ) → Sph.tophat_kernel 5 1 = 0)
        ∧ (1 * 1 ≤ (5:ℝ) → Sph.triangle_kernel 5 1 = 0))) :=
  ⟨⟨by norm_num, by norm_num⟩,
    kernels_nonneg_and_compact_support 5 1 (by norm_num) (by norm_num)⟩

/-! The store-level frame property of `minimise_A`. -/

theorem store_read_alloc_lt (s : Containers.Store) (v : List ℝ) (k : ℕ)
    (hk : k < s.length) :
    Containers.Store.read (Containers.Store.alloc s v).1 k
      = Containers.Store.read s k := by
  simp only [Containers.Store.read, Containers.Store.alloc]
  exact List.getD_append s [v] [] k hk

theorem minimiseStoreLoop_succ (solve : RootSolver) (r hs us : List ℝ)
    (kernel : ℝ → ℝ → ℝ) (γ tol : ℝ) (n : ℕ) (s : Containers.Store)
    (rOld rNew : ℕ) :
    Containers.minimiseStoreLoop solve r hs us kernel γ tol (n + 1) s rOld rNew
      = if Sph.diff
            (Containers.Store.read
              (Containers.sweepStore solve r hs us kernel γ s rOld rNew) rOld)
            (Containers.Store.read
              (Containers.sweepStore solve r hs us kernel γ s rOld rNew) rNew)
          ≤ tol
        then Containers.Store.alloc
            (Containers.sweepStore solve r hs us kernel γ s rOld rNew)
            (Containers.Store.read
              (Containers.sweepStore solve r hs us kernel γ s rOld rNew) rNew)
        else Containers.minimiseStoreLoop solve r hs us kernel γ tol n
          (Containers.Store.alloc
            (Containers.sweepStore solve r hs us kernel γ s rOld rNew)
            (Containers.Store.read
              (Containers.sweepStore solve r hs us kernel γ s rOld rNew) rNew)).1
          (Containers.Store.alloc
            (Containers.sweepStore solve r hs us kernel γ s rOld rNew)
            (Containers.Store.read
              (Containers.sweepStore solve r hs us kernel γ s rOld rNew) rNew)).2
          rNew := rfl

theorem minimiseStoreLoop_frame (solve : RootSolver) (r hs us : List ℝ)
    (kernel : ℝ → ℝ → ℝ) (γ tol : ℝ) :
    ∀ (n : ℕ) (s : Containers.Store) (rOld rNew k : ℕ),
      k < s.length → k ≠ rNew →
      Containers.Store.read
          (Containers.minimiseStoreLoop solve r hs us kernel γ tol n s rOld rNew).1 k
        = Containers.Store.read s k
      ∧ ((Containers.minimiseStoreLoop solve r hs us kernel γ tol n s rOld rNew).2
          = rOld
        ∨ s.length
          ≤ (Containers.minimiseStoreLoop solve r hs us kernel γ tol n s rOld rNew).2)
  | 0, s, rOld, rNew, k, _, _ => ⟨rfl, Or.inl rfl⟩
  | n + 1, s, rOld, rNew, k, hk, hne => by
      rw [minimiseStoreLoop_succ]
      set s1 := Containers.sweepStore solve r hs us kernel γ s rOld rNew with hs1
      have hlen1 : s1.length = s.length := by
        simp [hs1, Containers.sweepStore, Containers.Store.write]
      have hread1 : Containers.Store.read s1 k = Containers.Store.read s k := by
        simp only [hs1, Containers.sweepStore, Containers.Store.write,
          Containers.Store.read, List.getD_eq_getElem?_getD]
        rw [List.getElem?_set_ne (Ne.symm hne)]
      split_ifs with hd
      · refine ⟨?_, Or.inr ?_⟩
        · rw [store_read_alloc_lt s1 _ k (by omega)]
          exact hread1
        · simp only [Containers.Store.alloc]
          omega
      · obtain ⟨ih1, ih2⟩ := minimiseStoreLoop_frame solve r hs us kernel γ tol n
          (Containers.Store.alloc s1 (Containers.Store.read s1 rNew)).1
          (Containers.Store.alloc s1 (Containers.Store.read s1 rNew)).2 rNew k
          (by simp [Containers.Store.alloc]; omega) hne
        refine ⟨?_, Or.inr ?_⟩
        · rw [ih1, store_read_alloc_lt s1 _ k (by omega)]
          exact hread1
        · rcases ih2 with hcase | hcase
          · rw [hcase]
            simp only [Containers.Store.alloc]
            omega
          · have hlen : (Containers.Store.alloc s1
                (Containers.Store.read s1 rNew)).1.length = s.length + 1 := by
              simp [Containers.Store.alloc, hlen1]
            omega

theorem minimise_A_store_eq (solve : RootSolver) (fuel : ℕ)
    (s : Containers.Store) (rA : ℕ) (r hs us : List ℝ)
    (kernel : ℝ → ℝ → ℝ) (tol γ : ℝ) :
    Containers.minimise_A_store solve fuel s rA r hs us kernel tol γ
      = Containers.minimiseStoreLoop solve r hs us kernel γ tol fuel
          ((s ++ [Containers.Store.read s rA])
            ++ [Containers.Store.read (s ++ [Containers.Store.read s rA]) s.length])
          s.length ((s ++ [Containers.Store.read s rA]).length) := rfl

/-- C10 (confirmed): `minimise_A` never mutates the adiabat list object the
caller passes in: `old = A.copy(); new = old.copy()` allocate fresh objects
before the first sweep, every in-place update targets those copies, and the
returned list is freshly allocated during the call.  After the call the
caller's object `rA` still holds its pre-call values, and the returned
reference is a new object, distinct from `rA` and from every pre-existing
object. -/
theorem minimise_A_store_frame (solve : RootSolver) (fuel : ℕ)
    (s : Containers.Store) (rA : ℕ) (r hs us : List ℝ)
    (kernel : ℝ → ℝ → ℝ) (tol γ : ℝ) (hA : rA < s.length) :
    Containers.Store.read
        (Containers.minimise_A_store solve fuel s rA r hs us kernel tol γ).1 rA
      = Containers.Store.read s rA
    ∧ (Containers.minimise_A_store solve fuel s rA r hs us kernel tol γ).2 ≠ rA
    ∧ s.length
      ≤ (Containers.minimise_A_store solve fuel s rA r hs us kernel tol γ).2 := by
  rw [minimise_A_store_eq]
  have hlen1 : (s ++ [Containers.Store.read s rA]).length = s.length + 1 := by
    simp
  have hlen2 : ((s ++ [Containers.Store.read s rA])
      ++ [Containers.Store.read (s ++ [Containers.Store.read s rA]) s.length]).length
      = s.length + 2 := by
    simp
  obtain ⟨hread, hret⟩ := minimiseStoreLoop_frame solve r hs us kernel γ tol fuel
    ((s ++ [Containers.Store.read s rA])
      ++ [Containers.Store.read (s ++ [Containers.Store.read s rA]) s.length])
    s.length ((s ++ [Containers.Store.read s rA]).length) rA
    (by omega) (by omega)
  have hreads : Containers.Store.read
      ((s ++ [Containers.Store.read s rA])
        ++ [Containers.Store.read (s ++ [Containers.Store.read s rA]) s.length]) rA
      = Containers.Store.read s rA := by
    simp only [Containers.Store.read]
    rw [List.getD_append _ _ _ _ (by simp; omega), List.getD_append _ _ _ _ hA]
  rcases hret with hcase | hcase
  · refine ⟨by rw [hread, hreads], ?_, ?_⟩
    · rw [hcase]; omega
    · rw [hcase]
  · rw [hlen2] at hcase
    exact ⟨by rw [hread, hreads], by omega, by omega⟩

theorem minimise_A_store_frame_witness :
    (0 : ℕ) < ([[1, 2]] : Containers.Store).length
    ∧ (Containers.Store.read
        (Containers.minimise_A_store solveInit 1 [[1, 2]] 0 [0] [1] [1]
          Sph.gadget_kernel 1 (4 / 3)).1 0
      = Containers.Store.read [[1, 2]] 0
    ∧ (Containers.minimise_A_store solveInit 1 [[1, 2]] 0 [0] [1] [1]
        Sph.gadget_kernel 1 (4 / 3)).2 ≠ 0
    ∧ ([[1, 2]] : Containers.Store).length
      ≤ (Containers.minimise_A_store solveInit 1 [[1, 2]] 0 [0] [1] [1]
          Sph.gadget_kernel 1 (4 / 3)).2) :=
  ⟨by norm_num,
    minimise_A_store_frame solveInit 1 [[1, 2]] 0 [0] [1] [1]
      Sph.gadget_kernel 1 (4 / 3) (by norm_num)⟩

end SphTests

end
